import Mathlib

/-!
Verification of the ledger-backed wallet subsystem of the HamAan billing
app (`billing/models.py`, `billing/views.py`).

The Django models and service helpers are shallowly embedded as pure
functions over an explicit database state `DB`.  Machine integers are
modelled as `Int`/`Nat` (Django `BigIntegerField` overflow is out of the
modelled range for coin balances); fallible operations return `Except`,
where an `Except.error` result corresponds to an exception that aborts the
surrounding `transaction.atomic` block, i.e. the caller keeps the original
database state (rollback).
-/

namespace Billing

/-- Embeds `billing.models.Wallet`: one cached balance row per user
(`user` is the primary key). -/
structure Wallet where
  user : Nat
  balance : Int
  is_frozen : Bool
  freeze_reason : String
  last_txn_at : Option Nat
  deriving Repr, DecidableEq

/-- Embeds `billing.models.CoinTxn`: one append-only ledger entry.
`id` stands for the generated UUID primary key; `meta` models the small
JSON annotation as an association list. -/
structure CoinTxn where
  id : Nat
  user : Nat
  delta : Int
  reason : String
  ref_type : String
  ref_id : String
  idempotency_key : String
  meta : List (String × String)
  balance_after : Option Int
  deriving Repr, DecidableEq

/-- Embeds `billing.models.Purchase.Status` (a closed `TextChoices`). -/
inductive PStatus
  | PENDING
  | PAID
  | CREDITED
  | FAILED
  | CANCELED
  | EXPIRED
  deriving Repr, DecidableEq

/-- Embeds the JSON body handed to `PaymentCallbackView` (the fields the
view reads; the whole payload is what gets stored into `gateway_raw`).
`none` models an absent key. -/
structure CallbackData where
  purchase_id : Option Nat
  status : Option String
  gateway_ref_id : Option String
  deriving Repr, DecidableEq

/-- Embeds `billing.models.Purchase`.  `id` stands for the UUID primary
key, `gateway_raw` for the stored raw callback payload. -/
structure Purchase where
  id : Nat
  user : Nat
  status : PStatus
  gateway : String
  currency : String
  amount : Int
  coins : Nat
  gateway_authority : String
  gateway_ref_id : String
  gateway_raw : Option CallbackData
  credit_txn_id : Option Nat
  deriving Repr, DecidableEq

/-- Embeds `billing.models.CoinPack` (read-only catalog row). -/
structure CoinPack where
  code : String
  title : String
  coins : Nat
  currency : String
  price_amount : Int
  is_active : Bool
  sort_order : Nat
  deriving Repr, DecidableEq

/-- The database state the billing app mutates.  `nextTxnId` and
`nextPurchaseId` model fresh primary-key generation, `now` is the logical
clock behind `timezone.now()`. -/
structure DB where
  wallets : List Wallet
  txns : List CoinTxn
  purchases : List Purchase
  nextTxnId : Nat
  nextPurchaseId : Nat
  now : Nat
  deriving Repr, DecidableEq

/-- The empty database. -/
def initDB : DB := ⟨[], [], [], 0, 0, 0⟩

/-- `Wallet.objects.get(user=u)` / row lookup by primary key. -/
def findWallet (db : DB) (u : Nat) : Option Wallet :=
  db.wallets.find? (fun w => w.user = u)

/-- `Purchase.objects.get(id=pid)`. -/
def findPurchase (db : DB) (pid : Nat) : Option Purchase :=
  db.purchases.find? (fun p => p.id = pid)

/-- `CoinTxn.objects.get(id=tid)`. -/
def findTxn (db : DB) (tid : Nat) : Option CoinTxn :=
  db.txns.find? (fun t => t.id = tid)

/-- The cached balance visible to callers: the wallet's balance, or `0`
for a user whose wallet would be freshly ensured. -/
def walletBal (db : DB) (u : Nat) : Int :=
  match findWallet db u with
  | some w => w.balance
  | none => 0

/-- Sum of all ledger deltas recorded for user `u` (the source of truth
per the `Wallet` docstring). -/
def ledgerSum (db : DB) (u : Nat) : Int :=
  ((db.txns.filter (fun t => t.user = u)).map (fun t => t.delta)).sum

/-- Embeds `billing.models.ensure_wallet`: `get_or_create` of the wallet
row, returning the (possibly new) wallet together with the new state. -/
def ensure_wallet (db : DB) (u : Nat) : DB × Wallet :=
  match findWallet db u with
  | some w => (db, w)
  | none =>
      let w : Wallet := ⟨u, 0, false, "", none⟩
      ({ db with wallets := db.wallets ++ [w] }, w)

/-- The exceptions `apply_coin_txn` can raise: `ValueError` for a zero
delta, a frozen wallet or insufficient balance, and `IntegrityError` for
a reused `(user, idempotency_key)` pair. -/
inductive ApplyError
  | zeroDelta
  | frozen
  | insufficient
  | duplicateKey
  deriving Repr, DecidableEq

/-- Embeds `billing.models.apply_coin_txn` (decorated with
`@transaction.atomic`): validates, appends one `CoinTxn`, updates the
wallet balance and `last_txn_at`, snapshots `balance_after`, and returns
the entry.  An error result models the raised exception, after which the
whole transaction — including a wallet freshly created by
`ensure_wallet` — is rolled back, so the caller keeps its old `DB`. -/
def apply_coin_txn (db : DB) (user : Nat) (delta : Int) (reason : String)
    (ref_type : String) (ref_id : String) (idempotency_key : String)
    (meta : List (String × String)) : Except ApplyError (DB × CoinTxn) :=
  if delta = 0 then .error .zeroDelta
  else
    let ew := ensure_wallet db user
    let db1 := ew.1
    let wallet := ew.2
    if wallet.is_frozen then .error .frozen
    else if delta < 0 ∧ wallet.balance + delta < 0 then .error .insufficient
    else if idempotency_key ≠ "" ∧
        db1.txns.any (fun t => t.user = user ∧ t.idempotency_key = idempotency_key) then
      .error .duplicateKey
    else
      let newBal := wallet.balance + delta
      let txn : CoinTxn :=
        ⟨db1.nextTxnId, user, delta, reason, ref_type, ref_id,
          idempotency_key, meta, some newBal⟩
      let db2 : DB :=
        { db1 with
          txns := db1.txns ++ [txn]
          wallets := db1.wallets.map (fun w =>
            if w.user = user then
              { w with balance := w.balance + delta, last_txn_at := some db1.now }
            else w)
          nextTxnId := db1.nextTxnId + 1 }
      .ok (db2, txn)

/-- One call to `apply_coin_txn` as seen by a driving caller. -/
structure ApplyCall where
  user : Nat
  delta : Int
  reason : String
  ref_type : String
  ref_id : String
  idempotency_key : String
  meta : List (String × String)
  deriving Repr, DecidableEq

/-- Runs one `apply_coin_txn` call; on an exception the atomic block rolls
back and the database is unchanged. -/
def applyStep (db : DB) (c : ApplyCall) : DB :=
  match apply_coin_txn db c.user c.delta c.reason c.ref_type c.ref_id
      c.idempotency_key c.meta with
  | .ok (db', _) => db'
  | .error _ => db

/-- Runs a sequence of `apply_coin_txn` calls. -/
def applyCalls (db : DB) (calls : List ApplyCall) : DB :=
  calls.foldl applyStep db

/-- The exceptions `credit_purchase_once` can raise: `DoesNotExist` on the
re-fetch, `ValueError` for a purchase that is neither PAID nor CREDITED,
`DoesNotExist` when the recorded credit transaction is missing, and any
exception propagated out of the inner `apply_coin_txn` call. -/
inductive CreditError
  | purchaseMissing
  | invalidState
  | txnMissing
  | applyFailed (e : ApplyError)
  deriving Repr, DecidableEq

/-- The idempotency key `credit_purchase_once` derives:
`f"purchase:{purchase.gateway}:{purchase.gateway_ref_id or purchase.id}"`. -/
def purchaseIdemKey (p : Purchase) : String :=
  "purchase:" ++ p.gateway ++ ":" ++
    (if p.gateway_ref_id ≠ "" then p.gateway_ref_id else toString p.id)

/-- Embeds `billing.models.credit_purchase_once` (decorated with
`@transaction.atomic`): re-fetches the purchase under `select_for_update`,
rejects statuses other than PAID/CREDITED, replays the recorded entry when
already CREDITED with a `credit_txn_id`, and otherwise applies the credit
and transitions the purchase to CREDITED.  On error the caller keeps its
old `DB` (rollback). -/
def credit_purchase_once (db : DB) (pid : Nat) : Except CreditError (DB × CoinTxn) :=
  match findPurchase db pid with
  | none => .error .purchaseMissing
  | some purchase =>
    if purchase.status ≠ PStatus.PAID ∧ purchase.status ≠ PStatus.CREDITED then
      .error .invalidState
    else if purchase.status = PStatus.CREDITED ∧ purchase.credit_txn_id ≠ none then
      match purchase.credit_txn_id with
      | some tid =>
          match findTxn db tid with
          | some t => .ok (db, t)
          | none => .error .txnMissing
      | none => .error .txnMissing
    else
      match apply_coin_txn db purchase.user (Int.ofNat purchase.coins)
          "PURCHASE_CREDIT" "purchase" (toString purchase.id)
          (purchaseIdemKey purchase)
          [("gateway", purchase.gateway), ("gateway_ref_id", purchase.gateway_ref_id)] with
      | .error e => .error (.applyFailed e)
      | .ok (db1, txn) =>
          let db2 : DB :=
            { db1 with
              purchases := db1.purchases.map (fun p =>
                if p.id = pid then
                  { p with status := PStatus.CREDITED, credit_txn_id := some txn.id }
                else p) }
          .ok (db2, txn)

/-- N successive calls to `credit_purchase_once` on the same purchase
(`creditN db pid n` performs `n + 1` calls); a raised exception stops the
sequence with the database rolled back to before the failing call. -/
def creditN (db : DB) (pid : Nat) : Nat → Except CreditError (DB × CoinTxn)
  | 0 => credit_purchase_once db pid
  | n + 1 =>
      match creditN db pid n with
      | .ok (db', _) => credit_purchase_once db' pid
      | .error e => .error e

/-- The responses `PaymentCallbackView` can produce.  `integrityFault`
models the uncaught `IntegrityError` raised by `purchase.save()` when the
updated row would violate the `(gateway, gateway_ref_id)` uniqueness
constraint (the failed UPDATE leaves the database unchanged). -/
inductive CallbackResp
  | badRequest
  | purchaseNotFound
  | okPaid (txn_id : Nat)
  | creditFailed (e : CreditError)
  | okFailed
  | integrityFault
  deriving Repr, DecidableEq

/-- Models Python's `str.upper()` on the ASCII status strings the
callback compares (structural recursion over the characters, so concrete
states evaluate). -/
def pyUpper (s : String) : String :=
  ⟨s.data.map (fun c => if c.isLower then Char.ofNat (c.toNat - 32) else c)⟩

/-- Embeds `billing.views.PaymentCallbackView`: parses the payload, looks
the purchase up, and on a success status marks it PAID (recording the
gateway reference, which the database checks against the
`billing_purchase_unique_gateway_ref` constraint) then calls
`credit_purchase_once`; on any other status marks it FAILED and stores the
raw payload.  Returns the new database and the HTTP response. -/
def PaymentCallbackView (db : DB) (data : CallbackData) : DB × CallbackResp :=
  match data.purchase_id with
  | none => (db, .badRequest)
  | some pid =>
    match findPurchase db pid with
    | none => (db, .purchaseNotFound)
    | some purchase =>
      let status_flag := pyUpper (data.status.getD "")
      if status_flag = "PAID" ∨ status_flag = "OK" ∨ status_flag = "SUCCESS" then
        let newRef := data.gateway_ref_id.getD purchase.gateway_ref_id
        if newRef ≠ "" ∧ db.purchases.any (fun q =>
            q.id ≠ purchase.id ∧ q.gateway = purchase.gateway ∧
              q.gateway_ref_id = newRef) then
          (db, .integrityFault)
        else
          let db1 : DB :=
            { db with
              purchases := db.purchases.map (fun q =>
                if q.id = pid then
                  { q with status := PStatus.PAID, gateway_ref_id := newRef }
                else q) }
          match credit_purchase_once db1 pid with
          | .error e => (db1, .creditFailed e)
          | .ok (db2, txn) => (db2, .okPaid txn.id)
      else
        let db1 : DB :=
          { db with
            purchases := db.purchases.map (fun q =>
              if q.id = pid then
                { q with status := PStatus.FAILED, gateway_raw := some data }
              else q) }
        (db1, .okFailed)

/-- Embeds the purchase-intent creation shared by
`billing.views.PurchaseCreateView` and the webhook's `_create_purchase`:
a new PENDING purchase snapshotting `currency`/`amount`/`coins` from the
pack, with empty gateway reference fields. -/
def createPurchase (db : DB) (user : Nat) (pack : CoinPack) (gateway : String) :
    DB × Purchase :=
  let p : Purchase :=
    ⟨db.nextPurchaseId, user, PStatus.PENDING, gateway, pack.currency,
      pack.price_amount, pack.coins, "", "", none, none⟩
  ({ db with
      purchases := db.purchases ++ [p]
      nextPurchaseId := db.nextPurchaseId + 1 }, p)

/-! ### Interleaving model of two concurrent debits

`apply_coin_txn`'s debit path runs inside `transaction.atomic` and fetches
the wallet row with `select_for_update()`, so the row lock is held from the
balance check until commit.  The model below embeds exactly that protocol
for two transactions, each debiting `amount` from a shared wallet: acquire
the row lock, check the balance, perform the ledger write and `F()`-update
on success, then commit (which releases the lock).  A scheduler picks which
transaction attempts its next step; a transaction whose lock acquisition is
blocked makes no progress on that step. -/

/-- Program counter of one debiting transaction:
`start` → (acquire `select_for_update` lock) → `haveLock` → (balance check,
and on success the write) → `updated ok` → (commit, releasing the lock) →
`done ok`. -/
inductive DebitPC
  | start
  | haveLock
  | updated (ok : Bool)
  | done (ok : Bool)
  deriving Repr, DecidableEq

/-- Shared state for two concurrent debit transactions on one wallet row:
the committed balance, which transaction (if any) holds the row lock, and
each transaction's program counter. -/
structure ConcState where
  balance : Int
  lockHeld : Option Bool
  pcA : DebitPC
  pcB : DebitPC
  deriving Repr, DecidableEq

/-- Reads the program counter of transaction `t`. -/
def ConcState.pc (s : ConcState) (t : Bool) : DebitPC :=
  if t then s.pcB else s.pcA

/-- Writes the program counter of transaction `t`. -/
def ConcState.setPc (s : ConcState) (t : Bool) (p : DebitPC) : ConcState :=
  if t then { s with pcB := p } else { s with pcA := p }

/-- One scheduled step of transaction `t`, each debiting `amount`:
mirrors `apply_coin_txn`'s debit path under the row lock. -/
def debitStep (amount : Int) (s : ConcState) (t : Bool) : ConcState :=
  match s.pc t with
  | .start =>
      match s.lockHeld with
      | none => { s.setPc t .haveLock with lockHeld := some t }
      | some _ => s
  | .haveLock =>
      if s.balance - amount < 0 then s.setPc t (.updated false)
      else { s.setPc t (.updated true) with balance := s.balance - amount }
  | .updated ok => { s.setPc t (.done ok) with lockHeld := none }
  | .done _ => s

/-- Runs a schedule (a list of transaction choices) from a state. -/
def debitRun (amount : Int) (s : ConcState) (sched : List Bool) : ConcState :=
  sched.foldl (debitStep amount) s

/-- Both transactions about to debit a wallet whose balance is `b`. -/
def debitInit (b : Int) : ConcState := ⟨b, none, .start, .start⟩

/-- The wallet of user `u` in `db`, if any, is not frozen. -/
def walletNotFrozen (db : DB) (u : Nat) : Prop :=
  ∀ w, findWallet db u = some w → w.is_frozen = false

/-! ### Basic lemmas about the embedded operations -/

lemma find?_map_pres {α : Type} (l : List α) (f : α → α) (p : α → Bool)
    (hf : ∀ a, p (f a) = p a) :
    (l.map f).find? p = (l.find? p).map f := by
  rw [List.find?_map]
  have hpf : p ∘ f = p := funext hf
  rw [hpf]

lemma findWallet_user {db : DB} {u : Nat} {w : Wallet}
    (h : findWallet db u = some w) : w.user = u := by
  unfold findWallet at h
  simpa using List.find?_some h

lemma findPurchase_user {db : DB} {pid : Nat} {p : Purchase}
    (h : findPurchase db pid = some p) : p.id = pid := by
  unfold findPurchase at h
  simpa using List.find?_some h

lemma ensure_wallet_of_found {db : DB} {u : Nat} {w : Wallet}
    (h : findWallet db u = some w) : ensure_wallet db u = (db, w) := by
  unfold ensure_wallet
  rw [h]

lemma ensure_wallet_txns (db : DB) (u : Nat) :
    (ensure_wallet db u).1.txns = db.txns := by
  unfold ensure_wallet
  cases findWallet db u <;> rfl

lemma ensure_wallet_purchases (db : DB) (u : Nat) :
    (ensure_wallet db u).1.purchases = db.purchases := by
  unfold ensure_wallet
  cases findWallet db u <;> rfl

lemma ensure_wallet_nextTxnId (db : DB) (u : Nat) :
    (ensure_wallet db u).1.nextTxnId = db.nextTxnId := by
  unfold ensure_wallet
  cases findWallet db u <;> rfl

lemma ensure_wallet_balance (db : DB) (u : Nat) :
    (ensure_wallet db u).2.balance = walletBal db u := by
  unfold ensure_wallet walletBal
  cases findWallet db u <;> rfl

lemma ensure_wallet_user (db : DB) (u : Nat) :
    (ensure_wallet db u).2.user = u := by
  unfold ensure_wallet
  cases h : findWallet db u with
  | none => rfl
  | some w => exact findWallet_user h

lemma ensure_wallet_frozen {db : DB} {u : Nat} (h : walletNotFrozen db u) :
    (ensure_wallet db u).2.is_frozen = false := by
  unfold ensure_wallet
  cases hh : findWallet db u with
  | none => rfl
  | some w => exact h w hh

lemma ensure_wallet_findWallet (db : DB) (u : Nat) :
    findWallet (ensure_wallet db u).1 u = some (ensure_wallet db u).2 := by
  unfold ensure_wallet
  cases h : findWallet db u with
  | some w => simpa using h
  | none =>
      show findWallet { db with wallets := db.wallets ++ [_] } u = _
      unfold findWallet at h ⊢
      simp [List.find?_append, h]

lemma walletBal_ensure (db : DB) (u v : Nat) :
    walletBal (ensure_wallet db u).1 v = walletBal db v := by
  unfold ensure_wallet
  cases h : findWallet db u with
  | some w => rfl
  | none =>
      show walletBal { db with wallets := db.wallets ++ [_] } v = walletBal db v
      unfold findWallet at h
      unfold walletBal findWallet
      rw [List.find?_append]
      cases h2 : db.wallets.find? (fun w => w.user = v) with
      | some w => simp
      | none =>
          by_cases huv : u = v
          · subst huv
            simp [h]
          · simp [huv]

/-- The duplicate-key guard of `apply_coin_txn`, i.e. the condition under
which `CoinTxn.objects.create` raises `IntegrityError` against the
`billing_cointxn_unique_user_idempotency_key` constraint. -/
def dupKey (db : DB) (u : Nat) (k : String) : Prop :=
  k ≠ "" ∧ db.txns.any (fun t => t.user = u ∧ t.idempotency_key = k) = true

instance (db : DB) (u : Nat) (k : String) : Decidable (dupKey db u k) := by
  unfold dupKey
  infer_instance

/-- Success characterization of `apply_coin_txn`: the call returns `.ok`
exactly when every guard passes, and then the resulting state and entry
are the ones written by the source. -/
lemma apply_ok_iff (db : DB) (u : Nat) (δ : Int) (r rt ri k : String)
    (m : List (String × String)) (res : DB × CoinTxn) :
    apply_coin_txn db u δ r rt ri k m = .ok res ↔
      (δ ≠ 0 ∧ (ensure_wallet db u).2.is_frozen = false ∧
        ¬(δ < 0 ∧ (ensure_wallet db u).2.balance + δ < 0) ∧
        ¬ dupKey (ensure_wallet db u).1 u k ∧
        res = ({ (ensure_wallet db u).1 with
                  txns := (ensure_wallet db u).1.txns ++
                    [⟨(ensure_wallet db u).1.nextTxnId, u, δ, r, rt, ri, k, m,
                      some ((ensure_wallet db u).2.balance + δ)⟩]
                  wallets := (ensure_wallet db u).1.wallets.map (fun w =>
                    if w.user = u then
                      { w with balance := w.balance + δ,
                               last_txn_at := some (ensure_wallet db u).1.now }
                    else w)
                  nextTxnId := (ensure_wallet db u).1.nextTxnId + 1 },
               ⟨(ensure_wallet db u).1.nextTxnId, u, δ, r, rt, ri, k, m,
                 some ((ensure_wallet db u).2.balance + δ)⟩)) := by
  unfold apply_coin_txn dupKey
  dsimp only
  split_ifs with h1 h2 h3 h4
  · simp [h1]
  · simp [h2]
  · simp [h3]
  · constructor
    · intro h
      simp at h
    · rintro ⟨-, -, -, hnd, -⟩
      exact absurd h4 hnd
  · rw [Bool.not_eq_true] at h2
    simp only [Except.ok.injEq]
    constructor
    · rintro rfl
      exact ⟨h1, h2, h3, h4, rfl⟩
    · rintro ⟨-, -, -, -, rfl⟩
      rfl

lemma ensure_wallet_now (db : DB) (u : Nat) :
    (ensure_wallet db u).1.now = db.now := by
  unfold ensure_wallet
  cases findWallet db u <;> rfl

lemma apply_ok_txns {db db' : DB} {u : Nat} {δ : Int} {r rt ri k : String}
    {m : List (String × String)} {txn : CoinTxn}
    (h : apply_coin_txn db u δ r rt ri k m = .ok (db', txn)) :
    db'.txns = db.txns ++ [txn] := by
  obtain ⟨-, -, -, -, hres⟩ := (apply_ok_iff db u δ r rt ri k m (db', txn)).1 h
  obtain ⟨h1, h2⟩ := Prod.mk.injEq .. ▸ hres
  rw [h1, ← h2]
  exact congrArg (fun l => l ++ _) (ensure_wallet_txns db u)

lemma apply_ok_txn_eq {db db' : DB} {u : Nat} {δ : Int} {r rt ri k : String}
    {m : List (String × String)} {txn : CoinTxn}
    (h : apply_coin_txn db u δ r rt ri k m = .ok (db', txn)) :
    txn = ⟨db.nextTxnId, u, δ, r, rt, ri, k, m, some (walletBal db u + δ)⟩ := by
  obtain ⟨-, -, -, -, hres⟩ := (apply_ok_iff db u δ r rt ri k m (db', txn)).1 h
  obtain ⟨-, h2⟩ := Prod.mk.injEq .. ▸ hres
  rw [h2, ensure_wallet_nextTxnId, ensure_wallet_balance]

lemma apply_ok_purchases {db db' : DB} {u : Nat} {δ : Int} {r rt ri k : String}
    {m : List (String × String)} {txn : CoinTxn}
    (h : apply_coin_txn db u δ r rt ri k m = .ok (db', txn)) :
    db'.purchases = db.purchases := by
  obtain ⟨-, -, -, -, hres⟩ := (apply_ok_iff db u δ r rt ri k m (db', txn)).1 h
  obtain ⟨h1, -⟩ := Prod.mk.injEq .. ▸ hres
  rw [h1]
  exact ensure_wallet_purchases db u

lemma apply_ok_nextTxnId {db db' : DB} {u : Nat} {δ : Int} {r rt ri k : String}
    {m : List (String × String)} {txn : CoinTxn}
    (h : apply_coin_txn db u δ r rt ri k m = .ok (db', txn)) :
    db'.nextTxnId = db.nextTxnId + 1 := by
  obtain ⟨-, -, -, -, hres⟩ := (apply_ok_iff db u δ r rt ri k m (db', txn)).1 h
  obtain ⟨h1, -⟩ := Prod.mk.injEq .. ▸ hres
  rw [h1]
  exact congrArg (fun n => n + 1) (ensure_wallet_nextTxnId db u)

lemma apply_ok_no_dup {db db' : DB} {u : Nat} {δ : Int} {r rt ri k : String}
    {m : List (String × String)} {txn : CoinTxn}
    (h : apply_coin_txn db u δ r rt ri k m = .ok (db', txn)) :
    ¬ dupKey db u k := by
  obtain ⟨-, -, -, hnd, -⟩ := (apply_ok_iff db u δ r rt ri k m (db', txn)).1 h
  intro hd
  apply hnd
  unfold dupKey at hd ⊢
  rwa [ensure_wallet_txns]

lemma apply_ok_guards {db db' : DB} {u : Nat} {δ : Int} {r rt ri k : String}
    {m : List (String × String)} {txn : CoinTxn}
    (h : apply_coin_txn db u δ r rt ri k m = .ok (db', txn)) :
    δ ≠ 0 ∧ ¬(δ < 0 ∧ walletBal db u + δ < 0) := by
  obtain ⟨h0, -, h2, -, -⟩ := (apply_ok_iff db u δ r rt ri k m (db', txn)).1 h
  rw [ensure_wallet_balance] at h2
  exact ⟨h0, h2⟩

lemma apply_ok_findWallet {db db' : DB} {u : Nat} {δ : Int} {r rt ri k : String}
    {m : List (String × String)} {txn : CoinTxn}
    (h : apply_coin_txn db u δ r rt ri k m = .ok (db', txn)) (v : Nat) :
    findWallet db' v =
      if v = u then
        some { (ensure_wallet db u).2 with
                balance := (ensure_wallet db u).2.balance + δ,
                last_txn_at := some db.now }
      else findWallet db v := by
  obtain ⟨-, -, -, -, hres⟩ := (apply_ok_iff db u δ r rt ri k m (db', txn)).1 h
  obtain ⟨h1, -⟩ := Prod.mk.injEq .. ▸ hres
  subst h1
  show ((ensure_wallet db u).1.wallets.map _).find? _ = _
  rw [find?_map_pres _ _ _ (fun w => by by_cases hw : w.user = u <;> simp [hw])]
  by_cases hvu : v = u
  · subst hvu
    have hfw : findWallet (ensure_wallet db v).1 v = some (ensure_wallet db v).2 :=
      ensure_wallet_findWallet db v
    unfold findWallet at hfw
    rw [hfw]
    simp [ensure_wallet_user db v, ensure_wallet_now db v]
  · rw [if_neg hvu]
    have hne : List.find? (fun w => decide (w.user = v)) (ensure_wallet db u).1.wallets =
        List.find? (fun w => decide (w.user = v)) db.wallets := by
      unfold ensure_wallet
      cases hfv : findWallet db u with
      | some w => rfl
      | none =>
          show List.find? _ (db.wallets ++ [_]) = _
          rw [List.find?_append]
          cases h2 : db.wallets.find? (fun w => decide (w.user = v)) with
          | some w => rfl
          | none =>
              have huv : u ≠ v := fun hh => hvu hh.symm
              simp [h2, huv]
    rw [hne]
    unfold findWallet
    cases h2 : List.find? (fun w => decide (w.user = v)) db.wallets with
    | none => rfl
    | some w =>
        have hwv : w.user = v := by simpa using List.find?_some h2
        simp [hwv, hvu]

lemma apply_ok_walletBal {db db' : DB} {u : Nat} {δ : Int} {r rt ri k : String}
    {m : List (String × String)} {txn : CoinTxn}
    (h : apply_coin_txn db u δ r rt ri k m = .ok (db', txn)) (v : Nat) :
    walletBal db' v = walletBal db v + (if v = u then δ else 0) := by
  unfold walletBal
  rw [apply_ok_findWallet h v]
  by_cases hvu : v = u
  · subst hvu
    simp [ensure_wallet_balance]
    rfl
  · rw [if_neg hvu, if_neg hvu]
    cases findWallet db v <;> simp

lemma apply_ok_notFrozen {db db' : DB} {u : Nat} {δ : Int} {r rt ri k : String}
    {m : List (String × String)} {txn : CoinTxn}
    (h : apply_coin_txn db u δ r rt ri k m = .ok (db', txn)) :
    walletNotFrozen db' u := by
  obtain ⟨-, hfz, -, -, -⟩ := (apply_ok_iff db u δ r rt ri k m (db', txn)).1 h
  intro w hw
  rw [apply_ok_findWallet h u, if_pos rfl] at hw
  cases hw
  exact hfz

/-- A zero delta always raises `ValueError("delta must be non-zero")`,
before any read or write. -/
lemma apply_zero_delta (db : DB) (u : Nat) (r rt ri k : String)
    (m : List (String × String)) :
    apply_coin_txn db u 0 r rt ri k m = .error .zeroDelta := by
  unfold apply_coin_txn
  rw [if_pos rfl]

/-- A frozen wallet raises `ValueError("wallet is frozen")` (for a
non-zero delta). -/
lemma apply_frozen {db : DB} {u : Nat} {w : Wallet} (δ : Int)
    (r rt ri k : String) (m : List (String × String))
    (hδ : δ ≠ 0) (hw : findWallet db u = some w) (hf : w.is_frozen = true) :
    apply_coin_txn db u δ r rt ri k m = .error .frozen := by
  unfold apply_coin_txn
  dsimp only
  rw [if_neg hδ, ensure_wallet_of_found hw]
  rw [if_pos hf]

/-- A debit that would take the balance negative raises
`ValueError("insufficient balance")` (when the wallet is not frozen). -/
lemma apply_insufficient {db : DB} {u : Nat} {δ : Int}
    (r rt ri k : String) (m : List (String × String))
    (hδ : δ < 0) (hfz : walletNotFrozen db u) (hb : walletBal db u + δ < 0) :
    apply_coin_txn db u δ r rt ri k m = .error .insufficient := by
  unfold apply_coin_txn
  dsimp only
  rw [if_neg (by omega : ¬ δ = 0)]
  rw [if_neg (by rw [ensure_wallet_frozen hfz]; simp)]
  rw [if_pos ⟨hδ, by rw [ensure_wallet_balance]; exact hb⟩]

/-- A reused non-empty idempotency key raises `IntegrityError` from the
`CoinTxn.objects.create` call (when no earlier guard fires). -/
lemma apply_duplicate {db : DB} {u : Nat} {δ : Int} {k : String}
    (r rt ri : String) (m : List (String × String))
    (hδ : δ ≠ 0) (hfz : walletNotFrozen db u)
    (hb : ¬(δ < 0 ∧ walletBal db u + δ < 0)) (hd : dupKey db u k) :
    apply_coin_txn db u δ r rt ri k m = .error .duplicateKey := by
  unfold apply_coin_txn
  dsimp only
  rw [if_neg hδ]
  rw [if_neg (by rw [ensure_wallet_frozen hfz]; simp)]
  rw [if_neg (by rw [ensure_wallet_balance]; exact hb)]
  rw [if_pos (by unfold dupKey at hd; rw [ensure_wallet_txns]; exact hd)]

/-- The spec invariant: every user's cached balance equals the sum of
their ledger deltas (a user without a wallet row has balance 0, the
balance of a freshly ensured wallet). -/
def BalInv (db : DB) : Prop := ∀ u, walletBal db u = ledgerSum db u

lemma ledgerSum_apply_ok {db db' : DB} {u : Nat} {δ : Int} {r rt ri k : String}
    {m : List (String × String)} {txn : CoinTxn}
    (h : apply_coin_txn db u δ r rt ri k m = .ok (db', txn)) (v : Nat) :
    ledgerSum db' v = ledgerSum db v + (if v = u then δ else 0) := by
  unfold ledgerSum
  rw [apply_ok_txns h, List.filter_append, List.map_append, List.sum_append]
  have htu : txn.user = u := by rw [apply_ok_txn_eq h]
  have htd : txn.delta = δ := by rw [apply_ok_txn_eq h]
  by_cases hvu : v = u
  · subst hvu
    simp [List.filter_cons, htu, htd]
  · have huv : u ≠ v := fun hh => hvu hh.symm
    simp only [List.filter_cons, htu, List.filter_nil]
    rw [if_neg (by simpa using huv)]
    simp [hvu]

lemma apply_ok_BalInv {db db' : DB} {u : Nat} {δ : Int} {r rt ri k : String}
    {m : List (String × String)} {txn : CoinTxn}
    (hI : BalInv db) (h : apply_coin_txn db u δ r rt ri k m = .ok (db', txn)) :
    BalInv db' := by
  intro v
  rw [apply_ok_walletBal h v, ledgerSum_apply_ok h v, hI v]

lemma applyStep_BalInv {db : DB} (c : ApplyCall) (hI : BalInv db) :
    BalInv (applyStep db c) := by
  unfold applyStep
  cases h : apply_coin_txn db c.user c.delta c.reason c.ref_type c.ref_id
      c.idempotency_key c.meta with
  | error e => exact hI
  | ok res =>
      obtain ⟨db', txn⟩ := res
      exact apply_ok_BalInv hI h

lemma applyCalls_BalInv {db : DB} (calls : List ApplyCall) (hI : BalInv db) :
    BalInv (applyCalls db calls) := by
  induction calls generalizing db with
  | nil => exact hI
  | cons c cs ih => exact ih (applyStep_BalInv c hI)

instance (db : DB) (u : Nat) : Decidable (walletNotFrozen db u) :=
  match h : findWallet db u with
  | some w =>
      if hf : w.is_frozen = false then
        isTrue (fun w' hw' => by rw [h] at hw'; cases hw'; exact hf)
      else isFalse (fun hall => hf (hall w h))
  | none => isTrue (fun w' hw' => by rw [h] at hw'; exact Option.noConfusion hw')

/-- Success introduction for `apply_coin_txn`: when every guard passes,
the call returns the written state and entry. -/
lemma apply_success (db : DB) (u : Nat) (δ : Int) (r rt ri k : String)
    (m : List (String × String))
    (hδ : δ ≠ 0) (hfz : walletNotFrozen db u)
    (hb : ¬(δ < 0 ∧ walletBal db u + δ < 0)) (hd : ¬ dupKey db u k) :
    apply_coin_txn db u δ r rt ri k m = .ok
      ({ (ensure_wallet db u).1 with
          txns := (ensure_wallet db u).1.txns ++
            [⟨(ensure_wallet db u).1.nextTxnId, u, δ, r, rt, ri, k, m,
              some ((ensure_wallet db u).2.balance + δ)⟩]
          wallets := (ensure_wallet db u).1.wallets.map (fun w =>
            if w.user = u then
              { w with balance := w.balance + δ,
                       last_txn_at := some (ensure_wallet db u).1.now }
            else w)
          nextTxnId := (ensure_wallet db u).1.nextTxnId + 1 },
       ⟨(ensure_wallet db u).1.nextTxnId, u, δ, r, rt, ri, k, m,
         some ((ensure_wallet db u).2.balance + δ)⟩) := by
  apply (apply_ok_iff db u δ r rt ri k m _).2
  refine ⟨hδ, ensure_wallet_frozen hfz, ?_, ?_, rfl⟩
  · rw [ensure_wallet_balance]
    exact hb
  · unfold dupKey at hd ⊢
    rw [ensure_wallet_txns]
    exact hd

/-! ### Claim C1 -/

/-- C1: for every user, after any sequence of `apply_coin_txn` calls from
the initial state (failed calls roll back and change nothing), the cached
`Wallet.balance` equals the sum of the `delta` fields of all `CoinTxn`
ledger entries for that user, starting from 0 for a freshly ensured
wallet. -/
theorem C1_wallet_balance_eq_ledger_sum (calls : List ApplyCall) (u : Nat) :
    walletBal (applyCalls initDB calls) u = ledgerSum (applyCalls initDB calls) u :=
  applyCalls_BalInv calls (fun _ => by rfl) u

/-! ### Claim C8 -/

/-- C8: for every database state and user — including a new user with
balance 0 — calling `apply_coin_txn` with `delta = 0` fails with the
zero-delta validation error before any write: no ledger entry is created
and the wallets are unchanged (the step returns the original state). -/
theorem C8_zero_delta_rejected (db : DB) (u : Nat) (r rt ri k : String)
    (m : List (String × String)) :
    apply_coin_txn db u 0 r rt ri k m = .error .zeroDelta ∧
      applyStep db ⟨u, 0, r, rt, ri, k, m⟩ = db := by
  constructor
  · exact apply_zero_delta db u r rt ri k m
  · unfold applyStep
    rw [show (⟨u, 0, r, rt, ri, k, m⟩ : ApplyCall).delta = 0 from rfl]
    rw [apply_zero_delta]

/-! ### Claim C5 -/

lemma applyStep_nonneg (db : DB) (c : ApplyCall)
    (h : ∀ v, 0 ≤ walletBal db v) (v : Nat) :
    0 ≤ walletBal (applyStep db c) v := by
  unfold applyStep
  cases happ : apply_coin_txn db c.user c.delta c.reason c.ref_type c.ref_id
      c.idempotency_key c.meta with
  | error e => exact h v
  | ok res =>
      obtain ⟨db', txn⟩ := res
      rw [apply_ok_walletBal happ v]
      obtain ⟨-, hg⟩ := apply_ok_guards happ
      by_cases hvu : v = c.user
      · subst hvu
        rw [if_pos rfl]
        have h1 := h c.user
        rcases not_and_or.1 hg with h2 | h2 <;> omega
      · rw [if_neg hvu]
        have h1 := h v
        omega

lemma applyCalls_nonneg (db : DB) (calls : List ApplyCall)
    (h : ∀ v, 0 ≤ walletBal db v) (v : Nat) :
    0 ≤ walletBal (applyCalls db calls) v := by
  induction calls generalizing db with
  | nil => exact h v
  | cons c cs ih => exact ih (applyStep db c) (applyStep_nonneg db c h)

/-- C5 counterexample: a debit that would take the balance negative does
not always fail with the insufficient-balance condition — with wallet
balance 2 but the wallet frozen, `apply(-5)` raises the frozen-wallet
error instead (the frozen check runs first). -/
theorem C5_counterexample :
    apply_coin_txn ⟨[⟨0, 2, true, "abuse", none⟩], [], [], 0, 0, 0⟩ 0 (-5)
        "CHAT_REPLY_DEBIT" "" "" "" [] = .error .frozen := by
  rfl

/-- C5 (amended): for every debit `apply(user, delta)` with `delta < 0`
against a **non-frozen** wallet whose balance plus delta would be
negative, the call fails with the insufficient-balance condition and the
step leaves the database unchanged (no ledger entry, balance intact); and
starting from any state with non-negative balances, no sequence of
applier calls can drive any balance below zero.  (A frozen wallet fails
with the frozen-wallet condition instead, likewise without a write.) -/
theorem C5_insufficient_debit (db : DB) (u : Nat) (δ : Int)
    (r rt ri k : String) (m : List (String × String))
    (hδ : δ < 0) (hfz : walletNotFrozen db u) (hb : walletBal db u + δ < 0) :
    apply_coin_txn db u δ r rt ri k m = .error .insufficient ∧
      applyStep db ⟨u, δ, r, rt, ri, k, m⟩ = db ∧
      ((∀ v, 0 ≤ walletBal db v) →
        ∀ calls v, 0 ≤ walletBal (applyCalls db calls) v) := by
  have herr := apply_insufficient r rt ri k m hδ hfz hb
  refine ⟨herr, ?_, fun h0 calls v => applyCalls_nonneg db calls h0 v⟩
  unfold applyStep
  rw [show (⟨u, δ, r, rt, ri, k, m⟩ : ApplyCall).delta = δ from rfl]
  rw [herr]

/-- Witness for C5 at wallet balance 2 and `apply(-5)`: the call fails
insufficient-balance and the state is unchanged. -/
theorem C5_insufficient_debit_witness :
    apply_coin_txn ⟨[⟨0, 2, false, "", none⟩], [], [], 0, 0, 0⟩ 0 (-5)
        "CHAT_REPLY_DEBIT" "" "" "" [] = .error .insufficient ∧
      applyStep ⟨[⟨0, 2, false, "", none⟩], [], [], 0, 0, 0⟩
          ⟨0, -5, "CHAT_REPLY_DEBIT", "", "", "", []⟩ =
        ⟨[⟨0, 2, false, "", none⟩], [], [], 0, 0, 0⟩ :=
  ⟨(C5_insufficient_debit ⟨[⟨0, 2, false, "", none⟩], [], [], 0, 0, 0⟩ 0 (-5)
      "CHAT_REPLY_DEBIT" "" "" "" [] (by decide) (by decide) (by decide)).1,
   (C5_insufficient_debit ⟨[⟨0, 2, false, "", none⟩], [], [], 0, 0, 0⟩ 0 (-5)
      "CHAT_REPLY_DEBIT" "" "" "" [] (by decide) (by decide) (by decide)).2.1⟩

/-! ### Claim C2 -/

/-- C2 counterexample: the second call with a reused key does not always
fail with the duplicate/conflict condition.  From balance 3, a first
debit of 3 under key "k" succeeds; retrying the same debit with the same
key fails with the insufficient-balance condition (checked before the
key), not the duplicate condition. -/
theorem C2_counterexample :
    apply_coin_txn ⟨[⟨0, 3, false, "", none⟩], [], [], 0, 0, 0⟩ 0 (-3)
        "CHAT_REPLY_DEBIT" "" "" "k" [] =
      .ok (⟨[⟨0, 0, false, "", some 0⟩],
            [⟨0, 0, -3, "CHAT_REPLY_DEBIT", "", "", "k", [], some 0⟩], [], 1, 0, 0⟩,
           ⟨0, 0, -3, "CHAT_REPLY_DEBIT", "", "", "k", [], some 0⟩) ∧
      apply_coin_txn ⟨[⟨0, 0, false, "", some 0⟩],
          [⟨0, 0, -3, "CHAT_REPLY_DEBIT", "", "", "k", [], some 0⟩], [], 1, 0, 0⟩
        0 (-3) "CHAT_REPLY_DEBIT" "" "" "k" [] = .error .insufficient :=
  ⟨rfl, rfl⟩

/-- C2 (amended): calling `apply` twice with the same
`(user, idempotency_key)`, for a non-empty key, produces exactly one
ledger entry and one balance change: the second call always fails — with
the duplicate/conflict condition, or with the insufficient-balance
condition when the retried debit no longer fits the balance — and never
applies its delta; the failing call leaves the database unchanged. -/
theorem C2_idempotency_key_reuse (db db1 : DB) (u : Nat) (δ δ' : Int)
    (r r' rt rt' ri ri' k : String) (m m' : List (String × String)) (txn : CoinTxn)
    (hk : k ≠ "") (hδ' : δ' ≠ 0)
    (h1 : apply_coin_txn db u δ r rt ri k m = .ok (db1, txn)) :
    (apply_coin_txn db1 u δ' r' rt' ri' k m' = .error .duplicateKey ∨
      apply_coin_txn db1 u δ' r' rt' ri' k m' = .error .insufficient) ∧
      (db1.txns.filter (fun t => t.user = u ∧ t.idempotency_key = k)).length = 1 ∧
      applyStep db1 ⟨u, δ', r', rt', ri', k, m'⟩ = db1 := by
  have htxn := apply_ok_txn_eq h1
  have htxns := apply_ok_txns h1
  have hfz1 : walletNotFrozen db1 u := apply_ok_notFrozen h1
  have hdup : dupKey db1 u k := by
    refine ⟨hk, List.any_eq_true.2 ⟨txn, ?_, ?_⟩⟩
    · rw [htxns]
      exact List.mem_append_right _ (List.mem_singleton.2 rfl)
    · rw [htxn]
      simp
  have hsecond : apply_coin_txn db1 u δ' r' rt' ri' k m' = .error .duplicateKey ∨
      apply_coin_txn db1 u δ' r' rt' ri' k m' = .error .insufficient := by
    by_cases hins : δ' < 0 ∧ walletBal db1 u + δ' < 0
    · exact .inr (apply_insufficient r' rt' ri' k m' hins.1 hfz1 hins.2)
    · exact .inl (apply_duplicate r' rt' ri' m' hδ' hfz1 hins hdup)
  refine ⟨hsecond, ?_, ?_⟩
  · rw [htxns, List.filter_append, List.length_append]
    have hnd := apply_ok_no_dup h1
    have hnone : ∀ t ∈ db.txns,
        ¬((fun t => decide (t.user = u ∧ t.idempotency_key = k)) t = true) := by
      intro t ht hpt
      exact hnd ⟨hk, List.any_eq_true.2 ⟨t, ht, hpt⟩⟩
    rw [List.filter_eq_nil_iff.2 hnone]
    rw [htxn]
    simp
  · unfold applyStep
    show (match apply_coin_txn db1 u δ' r' rt' ri' k m' with
          | .ok (db', _) => db'
          | .error _ => db1) = db1
    rcases hsecond with h2 | h2 <;> rw [h2]

/-- Witness for C2: a first credit of 5 under key "k" succeeds; the
instantiated conclusion shows the second call fails and only one entry
with the key exists. -/
theorem C2_idempotency_key_reuse_witness :
    (apply_coin_txn ⟨[⟨0, 5, false, "", some 0⟩],
          [⟨0, 0, 5, "PROMO_CREDIT", "", "", "k", [], some 5⟩], [], 1, 0, 0⟩
        0 7 "PROMO_CREDIT" "" "" "k" [] = .error .duplicateKey ∨
      apply_coin_txn ⟨[⟨0, 5, false, "", some 0⟩],
          [⟨0, 0, 5, "PROMO_CREDIT", "", "", "k", [], some 5⟩], [], 1, 0, 0⟩
        0 7 "PROMO_CREDIT" "" "" "k" [] = .error .insufficient) ∧
      ((⟨[⟨0, 5, false, "", some 0⟩],
          [⟨0, 0, 5, "PROMO_CREDIT", "", "", "k", [], some 5⟩], [], 1, 0, 0⟩ : DB).txns.filter
        (fun t => t.user = 0 ∧ t.idempotency_key = "k")).length = 1 ∧
      applyStep ⟨[⟨0, 5, false, "", some 0⟩],
          [⟨0, 0, 5, "PROMO_CREDIT", "", "", "k", [], some 5⟩], [], 1, 0, 0⟩
          ⟨0, 7, "PROMO_CREDIT", "", "", "k", []⟩ =
        ⟨[⟨0, 5, false, "", some 0⟩],
          [⟨0, 0, 5, "PROMO_CREDIT", "", "", "k", [], some 5⟩], [], 1, 0, 0⟩ :=
  C2_idempotency_key_reuse ⟨[], [], [], 0, 0, 0⟩ _ 0 5 7 "PROMO_CREDIT" "PROMO_CREDIT"
    "" "" "" "" "k" [] []
    ⟨0, 0, 5, "PROMO_CREDIT", "", "", "k", [], some 5⟩
    (by decide) (by decide) rfl

/-! ### Claim C6 -/

/-- C6 counterexample: the listed preconditions (non-zero delta, wallet
not frozen, balance sufficient) are not enough for `apply` to succeed —
a reused non-empty idempotency key makes the call fail with
`IntegrityError` even though all three hold. -/
theorem C6_counterexample :
    (2 : Int) ≠ 0 ∧
      walletNotFrozen ⟨[⟨0, 5, false, "", some 0⟩],
        [⟨0, 0, 5, "PROMO_CREDIT", "", "", "k", [], some 5⟩], [], 1, 0, 0⟩ 0 ∧
      ¬((2 : Int) < 0 ∧
        walletBal ⟨[⟨0, 5, false, "", some 0⟩],
          [⟨0, 0, 5, "PROMO_CREDIT", "", "", "k", [], some 5⟩], [], 1, 0, 0⟩ 0 + 2 < 0) ∧
      apply_coin_txn ⟨[⟨0, 5, false, "", some 0⟩],
          [⟨0, 0, 5, "PROMO_CREDIT", "", "", "k", [], some 5⟩], [], 1, 0, 0⟩
        0 2 "PROMO_CREDIT" "" "" "k" [] = .error .duplicateKey :=
  ⟨by decide, by decide, by decide, rfl⟩

/-- C6 (amended): for every `apply` call whose preconditions hold — delta
non-zero, wallet not frozen, for debits balance + delta ≥ 0, **and the
idempotency key empty or not yet used by that user** — the call appends
exactly one ledger entry carrying the delta, updates the balance by delta
and `last_txn_at` to the write time, sets `balance_after` to the
resulting balance, and returns that entry. -/
theorem C6_apply_success_effects (db : DB) (u : Nat) (δ : Int)
    (r rt ri k : String) (m : List (String × String))
    (hδ : δ ≠ 0) (hfz : walletNotFrozen db u)
    (hb : ¬(δ < 0 ∧ walletBal db u + δ < 0)) (hd : ¬ dupKey db u k) :
    ∃ db' txn,
      apply_coin_txn db u δ r rt ri k m = .ok (db', txn) ∧
      db'.txns = db.txns ++ [txn] ∧
      txn.delta = δ ∧
      txn.reason = r ∧
      txn.balance_after = some (walletBal db u + δ) ∧
      walletBal db' u = walletBal db u + δ ∧
      (∃ w', findWallet db' u = some w' ∧ w'.last_txn_at = some db.now ∧
        w'.balance = walletBal db u + δ) := by
  have h := apply_success db u δ r rt ri k m hδ hfz hb hd
  refine ⟨_, _, h, apply_ok_txns h, rfl, rfl, ?_, ?_, ?_⟩
  · show some ((ensure_wallet db u).2.balance + δ) = some (walletBal db u + δ)
    rw [ensure_wallet_balance]
  · rw [apply_ok_walletBal h u]
    simp
  · refine ⟨{ (ensure_wallet db u).2 with
        balance := (ensure_wallet db u).2.balance + δ,
        last_txn_at := some db.now }, ?_, rfl, ?_⟩
    · rw [apply_ok_findWallet h u, if_pos rfl]
    · show (ensure_wallet db u).2.balance + δ = walletBal db u + δ
      rw [ensure_wallet_balance]

/-- Witness for C6: from balance 10, `apply(-3)` succeeds, the balance
becomes 7 and the returned entry records `balance_after = 7`. -/
theorem C6_apply_success_effects_witness :
    ∃ db' txn,
      apply_coin_txn ⟨[⟨0, 10, false, "", none⟩], [], [], 0, 0, 0⟩ 0 (-3)
          "CHAT_REPLY_DEBIT" "" "" "" [] = .ok (db', txn) ∧
      db'.txns = [] ++ [txn] ∧
      txn.delta = -3 ∧
      txn.reason = "CHAT_REPLY_DEBIT" ∧
      txn.balance_after = some 7 ∧
      walletBal db' 0 = 7 ∧
      (∃ w', findWallet db' 0 = some w' ∧ w'.last_txn_at = some 0 ∧
        w'.balance = 7) :=
  C6_apply_success_effects ⟨[⟨0, 10, false, "", none⟩], [], [], 0, 0, 0⟩ 0 (-3)
    "CHAT_REPLY_DEBIT" "" "" "" [] (by decide) (by decide) (by decide) (by decide)

/-! ### Claim C3 -/

/-- Primary keys already issued are below the generator: true of every
reachable state, since entries are only created with the next fresh id. -/
def IdsFresh (db : DB) : Prop := ∀ t ∈ db.txns, t.id < db.nextTxnId

lemma purchaseIdemKey_ne_empty (p : Purchase) : purchaseIdemKey p ≠ "" := by
  unfold purchaseIdemKey
  intro h
  have hl := congrArg String.length h
  rw [String.length_append, String.length_append, String.length_append] at hl
  have h9 : ("purchase:" : String).length = 9 := rfl
  have h1 : (":" : String).length = 1 := rfl
  have h0 : ("" : String).length = 0 := rfl
  omega

lemma find?_id_map_update (l : List Purchase) (pid : Nat) (g : Purchase → Purchase)
    (hid : ∀ q, (g q).id = q.id) :
    (l.map (fun q => if q.id = pid then g q else q)).find? (fun q => q.id = pid) =
      (l.find? (fun q => q.id = pid)).map (fun q => if q.id = pid then g q else q) := by
  apply find?_map_pres
  intro q
  by_cases hq : q.id = pid
  · simp [hq, hid]
  · simp [hq]

/-- C3: starting from a PAID purchase with at least one coin, a
non-frozen wallet, an unused derived idempotency key and fresh ids,
calling `credit_purchase_once` N times (N ≥ 1) produces exactly one
transition to CREDITED and one positive ledger entry whose delta is the
snapshotted coin amount: the first call yields `(db1, txn)`, every later
call — in particular on the already-CREDITED purchase with its recorded
`credit_txn_id` — returns the same entry with the state unchanged, the
key owns exactly one entry, and the balance rose exactly once. -/
theorem C3_credit_purchase_once_exactly_once (db : DB) (pid : Nat) (p : Purchase)
    (hp : findPurchase db pid = some p)
    (hst : p.status = PStatus.PAID)
    (hc : 1 ≤ p.coins)
    (hfz : walletNotFrozen db p.user)
    (hd : ¬ dupKey db p.user (purchaseIdemKey p))
    (hids : IdsFresh db) :
    ∃ db1 txn,
      credit_purchase_once db pid = .ok (db1, txn) ∧
      (∀ n, creditN db pid n = .ok (db1, txn)) ∧
      txn.delta = Int.ofNat p.coins ∧
      0 < txn.delta ∧
      (db1.txns.filter (fun t => t.user = p.user ∧
          t.idempotency_key = purchaseIdemKey p)).length = 1 ∧
      findPurchase db1 pid = some { p with status := PStatus.CREDITED,
                                           credit_txn_id := some txn.id } ∧
      walletBal db1 p.user = walletBal db p.user + Int.ofNat p.coins := by
  have hδ : Int.ofNat p.coins ≠ 0 := by
    rw [Int.ofNat_eq_coe]
    exact_mod_cast Nat.one_le_iff_ne_zero.1 hc
  have hbpos : ¬(Int.ofNat p.coins < 0 ∧
      walletBal db p.user + Int.ofNat p.coins < 0) := by
    rintro ⟨hlt, -⟩
    have hnn : (0 : Int) ≤ Int.ofNat p.coins := by
      rw [Int.ofNat_eq_coe]
      exact_mod_cast Nat.zero_le p.coins
    omega
  obtain ⟨dbA, txnA, happ⟩ : ∃ dbA txnA,
      apply_coin_txn db p.user (Int.ofNat p.coins) "PURCHASE_CREDIT" "purchase"
        (toString p.id) (purchaseIdemKey p)
        [("gateway", p.gateway), ("gateway_ref_id", p.gateway_ref_id)] =
      .ok (dbA, txnA) :=
    ⟨_, _, apply_success db p.user (Int.ofNat p.coins) "PURCHASE_CREDIT" "purchase"
      (toString p.id) (purchaseIdemKey p)
      [("gateway", p.gateway), ("gateway_ref_id", p.gateway_ref_id)] hδ hfz hbpos hd⟩
  have hcredit1 : credit_purchase_once db pid = .ok
      ({ dbA with purchases := dbA.purchases.map (fun q =>
          if q.id = pid then
            { q with status := PStatus.CREDITED, credit_txn_id := some txnA.id }
          else q) }, txnA) := by
    unfold credit_purchase_once
    rw [hp]
    dsimp only
    rw [if_neg (by rintro ⟨h1, -⟩; exact h1 hst)]
    rw [if_neg (by rintro ⟨h1, -⟩; rw [hst] at h1; exact absurd h1 (by decide))]
    rw [happ]
  have htxnA := apply_ok_txn_eq happ
  have htxns1 : dbA.txns = db.txns ++ [txnA] := apply_ok_txns happ
  have hfp1 : findPurchase
      ({ dbA with purchases := dbA.purchases.map (fun q =>
          if q.id = pid then
            { q with status := PStatus.CREDITED, credit_txn_id := some txnA.id }
          else q) } : DB) pid =
      some { p with status := PStatus.CREDITED, credit_txn_id := some txnA.id } := by
    unfold findPurchase
    show (dbA.purchases.map _).find? _ = _
    rw [apply_ok_purchases happ]
    rw [find?_id_map_update db.purchases pid
      (fun q => { q with status := PStatus.CREDITED, credit_txn_id := some txnA.id })
      (fun q => rfl)]
    unfold findPurchase at hp
    rw [hp]
    simp [findPurchase_user hp]
  have hfindTxn : findTxn
      ({ dbA with purchases := dbA.purchases.map (fun q =>
          if q.id = pid then
            { q with status := PStatus.CREDITED, credit_txn_id := some txnA.id }
          else q) } : DB) txnA.id = some txnA := by
    unfold findTxn
    show dbA.txns.find? _ = _
    rw [htxns1, List.find?_append]
    have hnone : db.txns.find? (fun t => t.id = txnA.id) = none := by
      rw [List.find?_eq_none]
      intro t ht
      have hlt := hids t ht
      have : txnA.id = db.nextTxnId := by rw [htxnA]
      simp only [decide_eq_true_eq]
      omega
    rw [hnone]
    simp
  have hreplay : credit_purchase_once
      ({ dbA with purchases := dbA.purchases.map (fun q =>
          if q.id = pid then
            { q with status := PStatus.CREDITED, credit_txn_id := some txnA.id }
          else q) } : DB) pid =
      .ok ({ dbA with purchases := dbA.purchases.map (fun q =>
          if q.id = pid then
            { q with status := PStatus.CREDITED, credit_txn_id := some txnA.id }
          else q) }, txnA) := by
    unfold credit_purchase_once
    rw [hfp1]
    dsimp only
    rw [if_neg (by rintro ⟨-, h2⟩; exact h2 rfl)]
    rw [if_pos ⟨rfl, by simp⟩]
    rw [hfindTxn]
  refine ⟨_, _, hcredit1, ?_, by rw [htxnA],
    by
      rw [htxnA]
      show (0 : Int) < Int.ofNat p.coins
      rw [Int.ofNat_eq_coe]
      exact_mod_cast Nat.pos_of_ne_zero (Nat.one_le_iff_ne_zero.1 hc),
    ?_, hfp1, ?_⟩
  · intro n
    induction n with
    | zero => exact hcredit1
    | succ n ih =>
        show (match creditN db pid n with
              | .ok (db', _) => credit_purchase_once db' pid
              | .error e => .error e) = _
        rw [ih]
        exact hreplay
  · show (dbA.txns.filter _).length = 1
    rw [htxns1, List.filter_append, List.length_append]
    have hnone : ∀ t ∈ db.txns,
        ¬((fun t => decide (t.user = p.user ∧
            t.idempotency_key = purchaseIdemKey p)) t = true) := by
      intro t ht hpt
      exact hd ⟨purchaseIdemKey_ne_empty p, List.any_eq_true.2 ⟨t, ht, hpt⟩⟩
    rw [List.filter_eq_nil_iff.2 hnone]
    rw [htxnA]
    simp
  · show walletBal dbA p.user = _
    rw [apply_ok_walletBal happ p.user]
    simp

/-- Witness for C3: a PAID 100-coin purchase is credited once and replays
return the same entry unchanged. -/
theorem C3_credit_purchase_once_exactly_once_witness :
    ∃ db1 txn,
      credit_purchase_once
        ⟨[], [], [⟨0, 0, PStatus.PAID, "SANDBOX", "IRR", 1000, 100, "", "X",
          none, none⟩], 0, 1, 0⟩ 0 = .ok (db1, txn) ∧
      (∀ n, creditN
        ⟨[], [], [⟨0, 0, PStatus.PAID, "SANDBOX", "IRR", 1000, 100, "", "X",
          none, none⟩], 0, 1, 0⟩ 0 n = .ok (db1, txn)) ∧
      txn.delta = Int.ofNat 100 ∧
      0 < txn.delta ∧
      (db1.txns.filter (fun t => t.user = 0 ∧
          t.idempotency_key = "purchase:SANDBOX:X")).length = 1 ∧
      findPurchase db1 0 = some ⟨0, 0, PStatus.CREDITED, "SANDBOX", "IRR", 1000,
        100, "", "X", none, some txn.id⟩ ∧
      walletBal db1 0 = 0 + Int.ofNat 100 := by
  have h := C3_credit_purchase_once_exactly_once
    ⟨[], [], [⟨0, 0, PStatus.PAID, "SANDBOX", "IRR", 1000, 100, "", "X",
      none, none⟩], 0, 1, 0⟩ 0
    ⟨0, 0, PStatus.PAID, "SANDBOX", "IRR", 1000, 100, "", "X", none, none⟩
    rfl rfl (by decide) (by decide) (by decide) (by intro t ht; cases ht)
  simpa using h

/-! ### Claim C4 -/

/-- C4 (code behavior at the failing input): `PaymentCallbackView` never
checks the current status, so the supposedly terminal states are not
terminal.  A FAILED purchase that receives a success callback is
re-marked PAID and then credited (final status CREDITED), and a CREDITED
purchase that receives a non-success callback is moved to FAILED —
contradicting the `Purchase` docstring's "FAILED/CANCELED/EXPIRED:
terminal states" and the claimed lifecycle. -/
theorem C4_callback_overrides_terminal_status :
    (findPurchase (PaymentCallbackView
        ⟨[], [], [⟨0, 0, PStatus.FAILED, "SANDBOX", "IRR", 1000, 100, "", "",
          none, none⟩], 0, 1, 0⟩
        ⟨some 0, some "PAID", some "X"⟩).1 0).map (fun p => p.status) =
      some PStatus.CREDITED ∧
    (findPurchase (PaymentCallbackView
        ⟨[⟨0, 100, false, "", some 0⟩],
         [⟨0, 0, 100, "PURCHASE_CREDIT", "purchase", "0", "purchase:SANDBOX:X",
           [("gateway", "SANDBOX"), ("gateway_ref_id", "X")], some 100⟩],
         [⟨0, 0, PStatus.CREDITED, "SANDBOX", "IRR", 1000, 100, "", "X",
           none, some 0⟩], 1, 1, 0⟩
        ⟨some 0, some "EXPIRED", none⟩).1 0).map (fun p => p.status) =
      some PStatus.FAILED :=
  ⟨by decide, by decide⟩

/-! ### Claim C7 -/

/-- The `billing_purchase_unique_gateway_ref` constraint as a state
predicate: no two distinct purchase rows share a non-empty
`(gateway, gateway_ref_id)` pair. -/
def RefUnique (db : DB) : Prop :=
  ∀ p ∈ db.purchases, ∀ q ∈ db.purchases,
    p.gateway_ref_id ≠ "" → p.gateway = q.gateway →
    p.gateway_ref_id = q.gateway_ref_id → p.id = q.id

/-- Primary-key property of the purchase table: rows are identified by
their id. -/
def PIdsUnique (db : DB) : Prop :=
  ∀ p ∈ db.purchases, ∀ q ∈ db.purchases, p.id = q.id → p = q

lemma RefUnique_map {db db' : DB} {f : Purchase → Purchase}
    (hgw : ∀ p, (f p).gateway = p.gateway)
    (href : ∀ p, (f p).gateway_ref_id = p.gateway_ref_id)
    (hid : ∀ p, (f p).id = p.id)
    (hpur : db'.purchases = db.purchases.map f)
    (h : RefUnique db) : RefUnique db' := by
  intro p hp q hq h1 h2 h3
  rw [hpur] at hp hq
  obtain ⟨p0, hp0, rfl⟩ := List.mem_map.1 hp
  obtain ⟨q0, hq0, rfl⟩ := List.mem_map.1 hq
  rw [hid, hid]
  refine h p0 hp0 q0 hq0 ?_ ?_ ?_
  · rwa [href] at h1
  · rw [hgw, hgw] at h2
    exact h2
  · rw [href, href] at h3
    exact h3

lemma RefUnique_markPaid (db0 : DB) (pid : Nat) (p : Purchase) (newRef : String)
    (st : PStatus)
    (hfp : findPurchase db0 pid = some p)
    (hpk : PIdsUnique db0)
    (hcol : ¬(newRef ≠ "" ∧ db0.purchases.any (fun q =>
        q.id ≠ p.id ∧ q.gateway = p.gateway ∧ q.gateway_ref_id = newRef) = true))
    (h0 : RefUnique db0) :
    RefUnique { db0 with purchases := db0.purchases.map (fun q =>
      if q.id = pid then { q with status := st, gateway_ref_id := newRef }
      else q) } := by
  have hpid := findPurchase_user hfp
  have hpmem : p ∈ db0.purchases := by
    unfold findPurchase at hfp
    exact List.mem_of_find?_eq_some hfp
  intro a ha b hb h1 h2 h3
  obtain ⟨a0, ha0, rfl⟩ := List.mem_map.1 ha
  obtain ⟨b0, hb0, rfl⟩ := List.mem_map.1 hb
  by_cases hA : a0.id = pid <;> by_cases hB : b0.id = pid
  · simp only [if_pos hA, if_pos hB]
    show a0.id = b0.id
    rw [hA, hB]
  · have ha0p : a0 = p := hpk a0 ha0 p hpmem (by rw [hA, hpid])
    subst ha0p
    simp only [if_pos hA, if_neg hB] at h1 h2 h3 ⊢
    exfalso
    apply hcol
    refine ⟨h1, List.any_eq_true.2 ⟨b0, hb0, ?_⟩⟩
    have hbne : b0.id ≠ a0.id := fun hh => hB (by rw [hh, hA])
    simp only [decide_eq_true_eq]
    exact ⟨hbne, h2.symm, h3.symm⟩
  · have hb0p : b0 = p := hpk b0 hb0 p hpmem (by rw [hB, hpid])
    subst hb0p
    simp only [if_neg hA, if_pos hB] at h1 h2 h3 ⊢
    exfalso
    apply hcol
    have hnewne : newRef ≠ "" := by rw [← h3]; exact h1
    refine ⟨hnewne, List.any_eq_true.2 ⟨a0, ha0, ?_⟩⟩
    have hane : a0.id ≠ b0.id := fun hh => hA (by rw [hh, hB])
    simp only [decide_eq_true_eq]
    exact ⟨hane, h2, h3⟩
  · simp only [if_neg hA, if_neg hB] at h1 h2 h3 ⊢
    exact h0 a0 ha0 b0 hb0 h1 h2 h3

lemma RefUnique_create (db0 : DB) (u : Nat) (pk : CoinPack) (gw : String)
    (h0 : RefUnique db0) : RefUnique (createPurchase db0 u pk gw).1 := by
  intro a ha b hb h1 h2 h3
  unfold createPurchase at ha hb
  rcases List.mem_append.1 ha with ha' | ha'
  · rcases List.mem_append.1 hb with hb' | hb'
    · exact h0 a ha' b hb' h1 h2 h3
    · exfalso
      have : b.gateway_ref_id = "" := by
        rcases List.mem_singleton.1 hb' with rfl
        rfl
      rw [h3] at h1
      exact h1 this
  · exfalso
    have : a.gateway_ref_id = "" := by
      rcases List.mem_singleton.1 ha' with rfl
      rfl
    exact h1 this

lemma credit_ok_cases {db db1 : DB} {pid : Nat} {txn : CoinTxn}
    (h : credit_purchase_once db pid = .ok (db1, txn)) :
    (∃ p, findPurchase db pid = some p ∧ p.status = PStatus.CREDITED ∧
      p.credit_txn_id = some txn.id ∧ db1 = db) ∨
    (∃ p dbA, findPurchase db pid = some p ∧
      (p.status = PStatus.PAID ∨
        (p.status = PStatus.CREDITED ∧ p.credit_txn_id = none)) ∧
      apply_coin_txn db p.user (Int.ofNat p.coins) "PURCHASE_CREDIT" "purchase"
        (toString p.id) (purchaseIdemKey p)
        [("gateway", p.gateway), ("gateway_ref_id", p.gateway_ref_id)] =
        .ok (dbA, txn) ∧
      db1 = { dbA with purchases := dbA.purchases.map (fun q =>
        if q.id = pid then
          { q with status := PStatus.CREDITED, credit_txn_id := some txn.id }
        else q) }) := by
  unfold credit_purchase_once at h
  cases hfp : findPurchase db pid with
  | none => rw [hfp] at h; exact absurd h (by simp)
  | some p =>
    rw [hfp] at h
    dsimp only at h
    by_cases h1 : p.status ≠ PStatus.PAID ∧ p.status ≠ PStatus.CREDITED
    · rw [if_pos h1] at h
      exact absurd h (by simp)
    rw [if_neg h1] at h
    by_cases h2 : p.status = PStatus.CREDITED ∧ p.credit_txn_id ≠ none
    · rw [if_pos h2] at h
      cases hct : p.credit_txn_id with
      | none => exact absurd hct h2.2
      | some tid =>
          rw [hct] at h
          dsimp only at h
          cases hft : findTxn db tid with
          | none => rw [hft] at h; exact absurd h (by simp)
          | some t =>
              rw [hft] at h
              injection h with h'
              injection h' with hdb htxn
              have htid : t.id = tid := by
                unfold findTxn at hft
                simpa using List.find?_some hft
              refine .inl ⟨p, rfl, h2.1, ?_, hdb.symm⟩
              rw [hct, ← htxn, htid]
    · rw [if_neg h2] at h
      cases happ : apply_coin_txn db p.user (Int.ofNat p.coins) "PURCHASE_CREDIT"
          "purchase" (toString p.id) (purchaseIdemKey p)
          [("gateway", p.gateway), ("gateway_ref_id", p.gateway_ref_id)] with
      | error e => rw [happ] at h; exact absurd h (by simp)
      | ok res =>
          obtain ⟨dbA, txnA⟩ := res
          rw [happ] at h
          dsimp only at h
          injection h with h'
          injection h' with hdb htxn
          subst htxn
          have hst : p.status = PStatus.PAID ∨
              (p.status = PStatus.CREDITED ∧ p.credit_txn_id = none) := by
            by_cases hs : p.status = PStatus.PAID
            · exact .inl hs
            · have hcred : p.status = PStatus.CREDITED := by
                by_contra hc
                exact h1 ⟨hs, hc⟩
              refine .inr ⟨hcred, ?_⟩
              by_contra hn
              exact h2 ⟨hcred, hn⟩
          exact .inr ⟨p, dbA, rfl, hst, happ, hdb.symm⟩

lemma credit_ok_RefUnique {db0 db1 : DB} {pid : Nat} {txn : CoinTxn}
    (hcr : credit_purchase_once db0 pid = .ok (db1, txn))
    (h0 : RefUnique db0) : RefUnique db1 := by
  rcases credit_ok_cases hcr with ⟨p, -, -, -, rfl⟩ | ⟨p, dbA, -, -, happ, rfl⟩
  · exact h0
  · refine RefUnique_map (f := fun q =>
      if q.id = pid then
        { q with status := PStatus.CREDITED, credit_txn_id := some txn.id }
      else q) ?_ ?_ ?_ ?_ h0
    · intro q
      by_cases hq : q.id = pid <;> simp [hq]
    · intro q
      by_cases hq : q.id = pid <;> simp [hq]
    · intro q
      by_cases hq : q.id = pid <;> simp [hq]
    · show (dbA.purchases.map _) = _
      rw [apply_ok_purchases happ]

lemma PaymentCallbackView_RefUnique (db0 : DB) (d : CallbackData)
    (hpk : PIdsUnique db0) (h0 : RefUnique db0) :
    RefUnique (PaymentCallbackView db0 d).1 := by
  unfold PaymentCallbackView
  cases hdpi : d.purchase_id with
  | none => exact h0
  | some pid =>
      dsimp only
      cases hfp : findPurchase db0 pid with
      | none => exact h0
      | some p =>
          dsimp only
          by_cases hs : pyUpper (d.status.getD "") = "PAID" ∨
              pyUpper (d.status.getD "") = "OK" ∨
              pyUpper (d.status.getD "") = "SUCCESS"
          · rw [if_pos hs]
            by_cases hcol : (d.gateway_ref_id.getD p.gateway_ref_id) ≠ "" ∧
                db0.purchases.any (fun q => q.id ≠ p.id ∧ q.gateway = p.gateway ∧
                  q.gateway_ref_id = d.gateway_ref_id.getD p.gateway_ref_id) = true
            · rw [if_pos hcol]
              exact h0
            · rw [if_neg hcol]
              have hmark := RefUnique_markPaid db0 pid p
                (d.gateway_ref_id.getD p.gateway_ref_id) PStatus.PAID hfp hpk hcol h0
              cases hcr : credit_purchase_once
                  ({ db0 with purchases := db0.purchases.map (fun q =>
                    if q.id = pid then
                      { q with status := PStatus.PAID,
                               gateway_ref_id := d.gateway_ref_id.getD p.gateway_ref_id }
                    else q) } : DB) pid with
              | error e => exact hmark
              | ok res =>
                  obtain ⟨db2, txn⟩ := res
                  exact credit_ok_RefUnique hcr hmark
          · rw [if_neg hs]
            refine RefUnique_map (f := fun q =>
              if q.id = pid then
                { q with status := PStatus.FAILED, gateway_raw := some d }
              else q) ?_ ?_ ?_ rfl h0
            · intro q
              by_cases hq : q.id = pid <;> simp [hq]
            · intro q
              by_cases hq : q.id = pid <;> simp [hq]
            · intro q
              by_cases hq : q.id = pid <;> simp [hq]

/-- C7: at most one purchase row ever holds a given non-empty
`(gateway, gateway_ref_id)` pair — the property is preserved by purchase
creation, by `credit_purchase_once` and by every callback — and when a
second `report_callback` tries to mark a different purchase PAID with an
already-used reference pair, the save fails at the reference-uniqueness
constraint: the response is the integrity fault and the database is
completely unchanged, so no second credit is applied. -/
theorem C7_gateway_ref_pair_unique (db : DB) (data : CallbackData) (pid2 : Nat)
    (p1 p2 : Purchase) (ref : String)
    (hp2 : findPurchase db pid2 = some p2)
    (hp1 : p1 ∈ db.purchases)
    (hne : p1.id ≠ p2.id)
    (hgw : p1.gateway = p2.gateway)
    (href1 : p1.gateway_ref_id = ref)
    (hrefne : ref ≠ "")
    (hdpi : data.purchase_id = some pid2)
    (hdref : data.gateway_ref_id = some ref)
    (hsucc : pyUpper (data.status.getD "") = "PAID" ∨
      pyUpper (data.status.getD "") = "OK" ∨
      pyUpper (data.status.getD "") = "SUCCESS") :
    PaymentCallbackView db data = (db, .integrityFault) ∧
      (∀ db0 d, PIdsUnique db0 → RefUnique db0 →
        RefUnique (PaymentCallbackView db0 d).1) ∧
      (∀ db0 u pk gw, RefUnique db0 → RefUnique (createPurchase db0 u pk gw).1) ∧
      (∀ db0 pid db1 txn, credit_purchase_once db0 pid = .ok (db1, txn) →
        RefUnique db0 → RefUnique db1) := by
  refine ⟨?_, PaymentCallbackView_RefUnique, RefUnique_create,
    fun db0 pid db1 txn hcr h0 => credit_ok_RefUnique hcr h0⟩
  unfold PaymentCallbackView
  rw [hdpi]
  dsimp only
  rw [hp2]
  dsimp only
  rw [if_pos hsucc, hdref]
  dsimp only [Option.getD]
  have hany : (db.purchases.any (fun q => q.id ≠ p2.id ∧ q.gateway = p2.gateway ∧
      q.gateway_ref_id = ref)) = true :=
    List.any_eq_true.2 ⟨p1, hp1,
      by simp only [decide_eq_true_eq]; exact ⟨hne, hgw, href1⟩⟩
  rw [if_pos ⟨hrefne, hany⟩]

/-- Witness for C7: purchase 0 already holds `(SANDBOX, "X")`; a success
callback trying to mark purchase 1 PAID with the same reference fails
with the integrity fault and changes nothing. -/
theorem C7_gateway_ref_pair_unique_witness :
    PaymentCallbackView
        ⟨[], [], [⟨0, 0, PStatus.CREDITED, "SANDBOX", "IRR", 1000, 100, "", "X",
            none, some 0⟩,
          ⟨1, 1, PStatus.PENDING, "SANDBOX", "IRR", 1000, 100, "", "",
            none, none⟩], 1, 2, 0⟩
        ⟨some 1, some "OK", some "X"⟩ =
      (⟨[], [], [⟨0, 0, PStatus.CREDITED, "SANDBOX", "IRR", 1000, 100, "", "X",
            none, some 0⟩,
          ⟨1, 1, PStatus.PENDING, "SANDBOX", "IRR", 1000, 100, "", "",
            none, none⟩], 1, 2, 0⟩, .integrityFault) ∧
      (∀ db0 d, PIdsUnique db0 → RefUnique db0 →
        RefUnique (PaymentCallbackView db0 d).1) ∧
      (∀ db0 u pk gw, RefUnique db0 → RefUnique (createPurchase db0 u pk gw).1) ∧
      (∀ db0 pid db1 txn, credit_purchase_once db0 pid = .ok (db1, txn) →
        RefUnique db0 → RefUnique db1) :=
  C7_gateway_ref_pair_unique
    ⟨[], [], [⟨0, 0, PStatus.CREDITED, "SANDBOX", "IRR", 1000, 100, "", "X",
        none, some 0⟩,
      ⟨1, 1, PStatus.PENDING, "SANDBOX", "IRR", 1000, 100, "", "",
        none, none⟩], 1, 2, 0⟩
    ⟨some 1, some "OK", some "X"⟩ 1
    ⟨0, 0, PStatus.CREDITED, "SANDBOX", "IRR", 1000, 100, "", "X", none, some 0⟩
    ⟨1, 1, PStatus.PENDING, "SANDBOX", "IRR", 1000, 100, "", "", none, none⟩
    "X" rfl (by decide) (by decide) rfl rfl (by decide) rfl rfl (by decide)

/-! ### Claim C10 -/

lemma findPurchase_mapped (db : DB) (pid : Nat) (p : Purchase)
    (g : Purchase → Purchase) (hid : ∀ q, (g q).id = q.id)
    (hp : findPurchase db pid = some p) (dbX : DB)
    (hX : dbX.purchases = db.purchases.map (fun q => if q.id = pid then g q else q)) :
    findPurchase dbX pid = some (g p) := by
  have hpid := findPurchase_user hp
  unfold findPurchase
  rw [hX, find?_id_map_update db.purchases pid g hid]
  unfold findPurchase at hp
  rw [hp]
  simp [hpid]

/-- C10: the payment callback treats exactly the uppercased statuses
"PAID", "OK" and "SUCCESS" as success: for such a status (given the
payload names an existing purchase) the purchase is marked PAID then
credited — on `okPaid` the final status is CREDITED, on a credit failure
it stays PAID, on the reference-collision fault nothing changes — and
the raw payload is never stored into `gateway_raw`; for every other
status, including an absent or empty one, the purchase moves to FAILED
with the raw payload stored in `gateway_raw`, no ledger entry is
written, and the response is `okFailed`. -/
theorem C10_callback_status_dispatch (db : DB) (data : CallbackData)
    (pid : Nat) (p : Purchase)
    (hdpi : data.purchase_id = some pid)
    (hp : findPurchase db pid = some p) :
    ((pyUpper (data.status.getD "") = "PAID" ∨
      pyUpper (data.status.getD "") = "OK" ∨
      pyUpper (data.status.getD "") = "SUCCESS") →
      (findPurchase (PaymentCallbackView db data).1 pid).map
          (fun q => q.gateway_raw) = some p.gateway_raw ∧
      (PaymentCallbackView db data).2 ≠ .okFailed ∧
      ((PaymentCallbackView db data).2 = .integrityFault →
        (PaymentCallbackView db data).1 = db) ∧
      (∀ tid, (PaymentCallbackView db data).2 = .okPaid tid →
        (findPurchase (PaymentCallbackView db data).1 pid).map
          (fun q => q.status) = some PStatus.CREDITED) ∧
      (∀ e, (PaymentCallbackView db data).2 = .creditFailed e →
        (findPurchase (PaymentCallbackView db data).1 pid).map
          (fun q => q.status) = some PStatus.PAID)) ∧
    (¬(pyUpper (data.status.getD "") = "PAID" ∨
       pyUpper (data.status.getD "") = "OK" ∨
       pyUpper (data.status.getD "") = "SUCCESS") →
      (PaymentCallbackView db data).2 = .okFailed ∧
      findPurchase (PaymentCallbackView db data).1 pid =
        some { p with status := PStatus.FAILED, gateway_raw := some data } ∧
      (PaymentCallbackView db data).1.txns = db.txns) := by
  unfold PaymentCallbackView
  rw [hdpi]
  dsimp only
  rw [hp]
  dsimp only
  constructor
  · intro hs
    rw [if_pos hs]
    by_cases hcol : (data.gateway_ref_id.getD p.gateway_ref_id) ≠ "" ∧
        db.purchases.any (fun q => q.id ≠ p.id ∧ q.gateway = p.gateway ∧
          q.gateway_ref_id = data.gateway_ref_id.getD p.gateway_ref_id) = true
    · rw [if_pos hcol]
      refine ⟨by rw [hp]; rfl, by simp, fun _ => rfl,
        fun tid h => CallbackResp.noConfusion h,
        fun e h => CallbackResp.noConfusion h⟩
    · rw [if_neg hcol]
      have hmarked := findPurchase_mapped db pid p
        (fun q =>
          { q with
            status := PStatus.PAID
            gateway_ref_id := data.gateway_ref_id.getD p.gateway_ref_id })
        (fun q => rfl) hp
        ({ db with purchases := db.purchases.map (fun q =>
            if q.id = pid then
              { q with
                status := PStatus.PAID
                gateway_ref_id := data.gateway_ref_id.getD p.gateway_ref_id }
            else q) } : DB) rfl
      cases hcr : credit_purchase_once
          ({ db with purchases := db.purchases.map (fun q =>
            if q.id = pid then
              { q with
                status := PStatus.PAID
                gateway_ref_id := data.gateway_ref_id.getD p.gateway_ref_id }
            else q) } : DB) pid with
      | error e =>
          refine ⟨by rw [hmarked]; rfl, by simp, fun h => CallbackResp.noConfusion h,
            fun tid h => CallbackResp.noConfusion h,
            fun e' h => by rw [hmarked]; rfl⟩
      | ok res =>
          obtain ⟨db2, txn⟩ := res
          rcases credit_ok_cases hcr with ⟨p', hfp', hst', -, -⟩ |
            ⟨p', dbA, hfp', -, happ, hdb2⟩
          · rw [hmarked] at hfp'
            cases hfp'
            exact absurd hst' (by simp)
          · rw [hmarked] at hfp'
            cases hfp'
            have hcred := findPurchase_mapped _ pid _
              (fun q =>
                { q with
                  status := PStatus.CREDITED
                  credit_txn_id := some txn.id })
              (fun q => rfl) hmarked db2
              (by
                rw [hdb2]
                show dbA.purchases.map _ = _
                rw [apply_ok_purchases happ])
            refine ⟨by rw [hcred]; rfl, by simp, fun h => CallbackResp.noConfusion h,
              fun tid h => by rw [hcred]; rfl,
              fun e h => CallbackResp.noConfusion h⟩
  · intro hs
    rw [if_neg hs]
    refine ⟨rfl, ?_, rfl⟩
    exact findPurchase_mapped db pid p
      (fun q => { q with status := PStatus.FAILED, gateway_raw := some data })
      (fun q => rfl) hp _ rfl

/-- Witness for C10 on the failure branch: an absent status moves the
purchase to FAILED and stores the raw payload. -/
theorem C10_callback_status_dispatch_witness :
    (¬(pyUpper ((none : Option String).getD "") = "PAID" ∨
       pyUpper ((none : Option String).getD "") = "OK" ∨
       pyUpper ((none : Option String).getD "") = "SUCCESS") →
      (PaymentCallbackView
        ⟨[], [], [⟨0, 0, PStatus.PENDING, "SANDBOX", "IRR", 1000, 100, "", "",
          none, none⟩], 0, 1, 0⟩ ⟨some 0, none, none⟩).2 = .okFailed ∧
      findPurchase (PaymentCallbackView
        ⟨[], [], [⟨0, 0, PStatus.PENDING, "SANDBOX", "IRR", 1000, 100, "", "",
          none, none⟩], 0, 1, 0⟩ ⟨some 0, none, none⟩).1 0 =
        some ⟨0, 0, PStatus.FAILED, "SANDBOX", "IRR", 1000, 100, "", "",
          some ⟨some 0, none, none⟩, none⟩ ∧
      (PaymentCallbackView
        ⟨[], [], [⟨0, 0, PStatus.PENDING, "SANDBOX", "IRR", 1000, 100, "", "",
          none, none⟩], 0, 1, 0⟩ ⟨some 0, none, none⟩).1.txns = []) ∧
    (pyUpper ((some "ok" : Option String).getD "") = "PAID" ∨
      pyUpper ((some "ok" : Option String).getD "") = "OK" ∨
      pyUpper ((some "ok" : Option String).getD "") = "SUCCESS") :=
  ⟨(C10_callback_status_dispatch
      ⟨[], [], [⟨0, 0, PStatus.PENDING, "SANDBOX", "IRR", 1000, 100, "", "",
        none, none⟩], 0, 1, 0⟩ ⟨some 0, none, none⟩ 0
      ⟨0, 0, PStatus.PENDING, "SANDBOX", "IRR", 1000, 100, "", "", none, none⟩
      rfl rfl).2,
   by decide⟩

/-! ### Claim C9 -/

/-- The transaction ended up applying its debit. -/
def succPC (p : DebitPC) : Prop := p = .updated true ∨ p = .done true

/-- The transaction ended up failing its balance check. -/
def failPC (p : DebitPC) : Prop := p = .updated false ∨ p = .done false

/-- The transaction is inside its critical section (holds the row lock). -/
def inCS (p : DebitPC) : Prop :=
  p = .haveLock ∨ p = .updated true ∨ p = .updated false

/-- Inductive invariant of the two-debit protocol: the lock marks exactly
the transaction in its critical section, at most one transaction ever
succeeds, a failed check implies the other transaction already succeeded,
and the committed balance reflects whether a debit has been applied. -/
def DebitInv (B : Int) (s : ConcState) : Prop :=
  (s.lockHeld = none → ¬ inCS s.pcA ∧ ¬ inCS s.pcB) ∧
  (s.lockHeld = some false → inCS s.pcA ∧ ¬ inCS s.pcB) ∧
  (s.lockHeld = some true → inCS s.pcB ∧ ¬ inCS s.pcA) ∧
  (¬ (succPC s.pcA ∧ succPC s.pcB)) ∧
  (failPC s.pcA → succPC s.pcB) ∧
  (failPC s.pcB → succPC s.pcA) ∧
  ((succPC s.pcA ∨ succPC s.pcB) → s.balance = 0) ∧
  (¬ succPC s.pcA → ¬ succPC s.pcB → s.balance = B)

lemma debitStep_inv (B : Int) (hB : 0 < B) (s : ConcState) (t : Bool)
    (h : DebitInv B s) : DebitInv B (debitStep B s t) := by
  obtain ⟨bal, lock, pcA, pcB⟩ := s
  unfold DebitInv at h ⊢
  unfold debitStep ConcState.pc ConcState.setPc
  cases t <;> cases pcA <;> cases pcB <;>
    rcases lock with _ | (_ | _) <;>
    simp_all [succPC, failPC, inCS]

lemma debitRun_inv (B : Int) (hB : 0 < B) (sched : List Bool) (s : ConcState)
    (h : DebitInv B s) : DebitInv B (debitRun B s sched) := by
  induction sched generalizing s with
  | nil => exact h
  | cons t ts ih => exact ih (debitStep B s t) (debitStep_inv B hB s t h)

lemma debitInit_inv (B : Int) : DebitInv B (debitInit B) := by
  unfold DebitInv debitInit
  simp [succPC, failPC, inCS]

/-- C9: under the row-lock protocol of `apply_coin_txn`'s debit path
(`select_for_update` then check then update, lock released at commit),
two concurrent debits of amount B against a wallet with balance B > 0
end — in every schedule in which both transactions finish — with exactly
one success and one insufficient-balance failure, never two successes,
and the final balance is 0. -/
theorem C9_concurrent_debits_exactly_one (B : Int) (hB : 0 < B)
    (sched : List Bool) (a b : Bool)
    (ha : (debitRun B (debitInit B) sched).pcA = .done a)
    (hb : (debitRun B (debitInit B) sched).pcB = .done b) :
    a ≠ b ∧ (debitRun B (debitInit B) sched).balance = 0 := by
  obtain ⟨-, -, -, hboth, hfa, hfb, hbal0, -⟩ :=
    debitRun_inv B hB sched (debitInit B) (debitInit_inv B)
  rw [ha] at hboth hfa hbal0
  rw [hb] at hboth hfb hbal0
  cases a <;> cases b <;> simp_all [succPC, failPC]

/-- Witness for C9 at B = 5 and a schedule where transaction A runs its
whole critical section first: A succeeds, B fails, balance 0. -/
theorem C9_concurrent_debits_exactly_one_witness :
    (0 : Int) < 5 ∧ (true ≠ false ∧
      (debitRun 5 (debitInit 5) [false, false, false, true, true, true]).balance = 0) :=
  ⟨by decide,
   C9_concurrent_debits_exactly_one 5 (by decide)
     [false, false, false, true, true, true] true false (by decide) (by decide)⟩

end Billing
